import Mathlib

/-!
Verification of the physician self-assessment scoring tool (src/app.py).

The embedding mirrors the Python source:
* `QUESTIONS` is the static question catalog (category name, questions with
  option labels and weights).
* `calculate_scores` embeds `calculate_scores`: answers are modelled as
  `Option ℤ` (a `none` answer, an unknown category name, or an answer list
  longer than the catalog question list makes the inner computation fail,
  exactly where the Python body raises; the surrounding `try/except` is the
  recovery to `([], 0, [])`).
* `get_recommendations`, `validate_responses` embed the functions of the
  same names.
* Python `round(x, 2)` is modelled exactly over `ℚ` as round-half-to-even
  of `100 * x` divided by `100` (`round2`).
-/

structure Question where
  question : String
  options : List String
  weight : ℚ
  deriving Repr, DecidableEq

/-- Questions of the "Personal Connect" category (weights from src/app.py). -/
def personalConnectQs : List Question :=
  [{ question := "How often do you call patients by name and make personal contact?",
     options := ["Never", "Rarely", "Sometimes", "Often", "Always"],
     weight := 1.2 },
   { question := "Do you sit down with patients (not standing) during consultations?",
     options := ["Never", "Rarely", "Sometimes", "Often", "Always"],
     weight := 1.0 },
   { question := "How frequently do you telephone patients to check on them after procedures or missed appointments?",
     options := ["Never", "Rarely", "Sometimes", "Often", "Always"],
     weight := 1.1 },
   { question := "Do you show empathy and listen actively to patients\x27 stories?",
     options := ["Never", "Rarely", "Sometimes", "Often", "Always"],
     weight := 1.3 },
   { question := "How often do you discuss patients\x27 personal life, hobbies, likes, and dislikes?",
     options := ["Never", "Rarely", "Sometimes", "Often", "Always"],
     weight := 1.0 }]

/-- Questions of the "Trust of Your Trade" category. -/
def tradeQs : List Question :=
  [{ question := "How regularly do you attend lectures and national meetings?",
     options := ["Never", "Once a year", "2-3 times/year", "Quarterly", "Monthly or more"],
     weight := 1.0 },
   { question := "How often do you read the latest research in your area of practice?",
     options := ["Never", "Rarely", "Monthly", "Weekly", "Daily"],
     weight := 1.2 },
   { question := "Do you pursue continuing medical education and skill development?",
     options := ["Never", "Rarely", "Sometimes", "Often", "Consistently"],
     weight := 1.1 },
   { question := "How confident are you in acknowledging when you need refreshers in certain areas?",
     options := ["Not confident", "Slightly confident", "Moderately confident", "Very confident", "Extremely confident"],
     weight := 1.0 },
   { question := "Do you strive for excellence beyond just avoiding malpractice?",
     options := ["Never", "Rarely", "Sometimes", "Often", "Always"],
     weight := 1.3 }]

/-- Questions of the "Social Trust" category. -/
def socialQs : List Question :=
  [{ question := "How much time do you invest in building trust with patients from different backgrounds?",
     options := ["No effort", "Minimal effort", "Moderate effort", "Significant effort", "Maximum effort"],
     weight := 1.2 },
   { question := "Do you create a safe environment for patients to share sensitive issues (substance use, mental health)?",
     options := ["Never", "Rarely", "Sometimes", "Often", "Always"],
     weight := 1.3 },
   { question := "How reliable are you in following up on patient concerns?",
     options := ["Unreliable", "Somewhat reliable", "Moderately reliable", "Very reliable", "Completely reliable"],
     weight := 1.1 },
   { question := "Do you demonstrate care about patients\x27 wellbeing in your actions?",
     options := ["Never", "Rarely", "Sometimes", "Often", "Always"],
     weight := 1.2 },
   { question := "How well do you encourage patients to share when they\x27re feeling sad, depressed, or lonely?",
     options := ["Not at all", "Poorly", "Adequately", "Well", "Excellently"],
     weight := 1.0 }]

/-- Questions of the "Treating Style" category. -/
def treatingQs : List Question :=
  [{ question := "How conscious are you of health disparities affecting different populations?",
     options := ["Not conscious", "Slightly conscious", "Moderately conscious", "Very conscious", "Extremely conscious"],
     weight := 1.1 },
   { question := "Do you examine your own biases regarding race, ethnicity, sex, or socioeconomic status?",
     options := ["Never", "Rarely", "Sometimes", "Often", "Regularly"],
     weight := 1.3 },
   { question := "How carefully do you ensure equitable treatment across all patient demographics?",
     options := ["Not carefully", "Somewhat carefully", "Moderately carefully", "Very carefully", "Extremely carefully"],
     weight := 1.2 },
   { question := "Do you stay informed about social determinants of health?",
     options := ["Not informed", "Slightly informed", "Moderately informed", "Well informed", "Expert level"],
     weight := 1.0 },
   { question := "How often do you reflect on whether you might be perceived as judging patients?",
     options := ["Never", "Rarely", "Sometimes", "Often", "Always"],
     weight := 1.1 }]

/-- The static assessment catalog, transcribed from `QUESTIONS` in src/app.py. -/
def QUESTIONS : List (String × List Question) :=
  [("Personal Connect (Do You Care About Me?)", personalConnectQs),
   ("Trust of Your Trade (Are You the Best?)", tradeQs),
   ("Social Trust (Can I Trust You?)", socialQs),
   ("Treating Style (Are You Treating Me Differently?)", treatingQs)]

/-- Dictionary lookup `QUESTIONS[category]` (`none` models a Python `KeyError`). -/
def lookupQ (category : String) : Option (List Question) :=
  QUESTIONS.lookup category

/-- Round-half-to-even to an integer, the rounding mode of Python `round`. -/
def roundHalfEven (q : ℚ) : ℤ :=
  if q - q.floor < 1 / 2 then q.floor
  else if 1 / 2 < q - q.floor then q.floor + 1
  else if q.floor % 2 = 0 then q.floor else q.floor + 1

theorem ratFloor_eq_floor (q : ℚ) : q.floor = ⌊q⌋ := by
  rw [Rat.floor_def', Rat.floor_def]

theorem roundHalfEven_def (q : ℚ) :
    roundHalfEven q =
      if q - ⌊q⌋ < 1 / 2 then ⌊q⌋
      else if 1 / 2 < q - ⌊q⌋ then ⌊q⌋ + 1
      else if ⌊q⌋ % 2 = 0 then ⌊q⌋ else ⌊q⌋ + 1 := by
  rw [roundHalfEven, ratFloor_eq_floor]

/-- Python `round(x, 2)` over exact rationals. -/
def round2 (q : ℚ) : ℚ :=
  (roundHalfEven (q * 100) : ℚ) / 100

structure QuestionDetail where
  question : String
  score : ℤ
  max_score : ℤ
  weighted_score : ℚ
  deriving Repr, DecidableEq

structure CategoryDetail where
  raw_score : ℚ
  max_possible : ℚ
  normalized_score : ℚ
  question_details : List QuestionDetail
  deriving Repr, DecidableEq

/-- The inner loop of `calculate_scores` over one category's answer list,
starting at question index `i`.  `qs[i]?` misses when the answer list is
longer than the catalog question list (Python `IndexError`), and a `none`
answer makes `answer * weight` fail (Python `TypeError`); either aborts the
whole computation. -/
def catLoop (qs : List Question) (i : ℕ) :
    List (Option ℤ) → Except Unit (ℚ × ℚ × List QuestionDetail)
  | [] => .ok (0, 0, [])
  | answer :: rest =>
    match qs[i]? with
    | none => .error ()
    | some q =>
      match answer with
      | none => .error ()
      | some a =>
        match catLoop qs (i + 1) rest with
        | .error e => .error e
        | .ok (total_weighted, max_weighted, question_scores) =>
          .ok (a * q.weight + total_weighted, 4 * q.weight + max_weighted,
               { question := q.question, score := a, max_score := 4,
                 weighted_score := a * q.weight } :: question_scores)

/-- The per-category body of `calculate_scores`, over an explicit catalog
(the Python code reads the global `QUESTIONS`). -/
def scoreCatsWith (catalog : List (String × List Question)) :
    List (String × List (Option ℤ)) →
      Except Unit (List (String × ℚ) × List (String × CategoryDetail))
  | [] => .ok ([], [])
  | (category, answers) :: rest =>
    match catalog.lookup category with
    | none => .error ()
    | some qs =>
      match catLoop qs 0 answers with
      | .error e => .error e
      | .ok (total_weighted, max_weighted, question_scores) =>
        match scoreCatsWith catalog rest with
        | .error e => .error e
        | .ok (category_scores, category_details) =>
          let normalized_score : ℚ :=
            if 0 < max_weighted then total_weighted / max_weighted * 5 else 0
          .ok ((category, round2 normalized_score) :: category_scores,
               (category,
                { raw_score := total_weighted, max_possible := max_weighted,
                  normalized_score := normalized_score,
                  question_details := question_scores }) :: category_details)

/-- The body of `calculate_scores` (everything inside the `try`). -/
def calcScoresExcWith (catalog : List (String × List Question))
    (responses : List (String × List (Option ℤ))) :
    Except Unit ((List (String × ℚ)) × ℚ × (List (String × CategoryDetail))) :=
  match scoreCatsWith catalog responses with
  | .error e => .error e
  | .ok (category_scores, category_details) =>
    let overall_score : ℚ :=
      if category_scores.isEmpty then 0
      else (category_scores.map Prod.snd).sum / category_scores.length
    .ok (category_scores, round2 overall_score, category_details)

/-- `calculate_scores` from src/app.py: the `try` body with the `except`
recovery to `({}, 0, {})`. -/
def calculate_scores (responses : List (String × List (Option ℤ))) :
    (List (String × ℚ)) × ℚ × (List (String × CategoryDetail)) :=
  match calcScoresExcWith QUESTIONS responses with
  | .ok r => r
  | .error _ => ([], 0, [])

/-- Shorthand for the unrecovered computation over the standard catalog. -/
def calcScoresExc (responses : List (String × List (Option ℤ))) :
    Except Unit ((List (String × ℚ)) × ℚ × (List (String × CategoryDetail))) :=
  calcScoresExcWith QUESTIONS responses

inductive Recommendation where
  | general (level : String) (message : String) (icon : String)
  | forCategory (category : String) (score : ℚ) (actions : List String)
  deriving Repr, DecidableEq

/-- The overall-assessment entry of `get_recommendations` (the first
`if/elif/else` chain). -/
def overallRec (overall_score : ℚ) : Recommendation :=
  if overall_score ≥ 4.5 then
    .general "Excellent"
      "You demonstrate exceptional patient-centered care across all dimensions. Continue your excellent work!"
      "🎯"
  else if overall_score ≥ 4.0 then
    .general "Very Good"
      "You show strong patient care skills with minor areas for enhancement."
      "👍"
  else if overall_score ≥ 3.5 then
    .general "Good"
      "You have good patient care skills. Focus on the areas below to reach excellence."
      "📈"
  else if overall_score ≥ 3.0 then
    .general "Fair"
      "You have a foundation to build on. Improvement needed in several areas."
      "⚠️"
  else
    .general "Needs Improvement"
      "Your patient care approach needs substantial development. Prioritize the recommendations below."
      "🚨"

/-- Strip leading and trailing whitespace, Python `str.strip`. -/
def trimChars (l : List Char) : List Char :=
  ((l.dropWhile Char.isWhitespace).reverse.dropWhile Char.isWhitespace).reverse

/-- The category short name: everything before the first opening
parenthesis, stripped of surrounding whitespace (Python
`c.split(...)[0].strip()` on the parenthesis character). -/
def shortName (c : String) : String :=
  ⟨trimChars (c.data.takeWhile (fun ch => ch ≠ '('))⟩

def personalConnectActions : List String :=
  ["Make it a habit to sit down during all patient consultations",
   "Call patients by name and ask about their personal interests at each visit",
   "Set calendar reminders to follow up with patients after procedures",
   "Practice active listening - allow 2-3 seconds of silence after patients speak",
   "Schedule 5-10 extra minutes for new patient appointments"]

def tradeActions : List String :=
  ["Subscribe to 2-3 key journals in your specialty",
   "Register for at least 2 conferences per year with action plan implementation",
   "Join or start a journal club with colleagues",
   "Dedicate 30 minutes weekly to reading latest research (Friday afternoons work well)",
   "Complete 25+ CME credits annually focused on clinical practice gaps"]

def socialTrustActions : List String :=
  ["Use the BATHE technique (Background, Affect, Trouble, Handling, Empathy) for sensitive topics",
   "Start appointments with \x27What\x27s most important for us to discuss today?\x27",
   "Create a checklist for following up on every patient concern",
   "Practice reflective statements: \x27What I hear you saying is...\x27",
   "Document patient preferences and follow up on them at next visit"]

def treatingStyleActions : List String :=
  ["Complete implicit bias training annually",
   "Review practice data annually for demographic treatment patterns",
   "Use the SAFETIPS mnemonic (Sex, Age, Faith, Ethnicity, Trauma, Identity, Personality, Status) in patient assessments",
   "Partner with community organizations to understand local health determinants",
   "Regularly audit your own clinical decisions for consistency across patient groups"]

/-- `needle.isPrefixOf` at some position of `hay`: the Python `in` test on
strings, on character lists. -/
def hasSub (hay needle : List Char) : Bool :=
  match hay with
  | [] => needle.isEmpty
  | _ :: rest => needle.isPrefixOf hay || hasSub rest needle

/-- Python `needle in hay` for strings. -/
def strContains (hay needle : String) : Bool :=
  hasSub hay.toList needle.toList

/-- The `if/elif` chain of `get_recommendations` choosing a fixed action
list by substring match on the category name (no `else`: an unmatched
category gets no entry). -/
def categoryActions (category : String) : Option (List String) :=
  if strContains category "Personal Connect" then some personalConnectActions
  else if strContains category "Trust of Your Trade" then some tradeActions
  else if strContains category "Social Trust" then some socialTrustActions
  else if strContains category "Treating Style" then some treatingStyleActions
  else none

/-- The final loop of `get_recommendations`: one detail entry per category
scoring below 4.0, in mapping order. -/
def detailRecs : List (String × ℚ) → List Recommendation
  | [] => []
  | (category, score) :: rest =>
    if score < 4.0 then
      match categoryActions category with
      | some actions => .forCategory category score actions :: detailRecs rest
      | none => detailRecs rest
    else detailRecs rest

/-- `improvement_categories` of `get_recommendations`. -/
def improvementCategories (category_scores : List (String × ℚ)) : List String :=
  (category_scores.filter (fun p => p.2 < 4.0)).map Prod.fst

/-- The "Focus Areas" entry of `get_recommendations`. -/
def focusRec (improvement : List String) : Recommendation :=
  .general "Focus Areas"
    ("Priority areas for improvement: " ++
      String.intercalate ", " (improvement.map shortName))
    "🎯"

/-- The body of `get_recommendations` (everything inside the `try`; it has
no failing operation, so it always succeeds). -/
def getRecsExc (category_scores : List (String × ℚ)) (overall_score : ℚ) :
    Except Unit (List Recommendation) :=
  let base := [overallRec overall_score]
  let improvement := improvementCategories category_scores
  let withFocus := if improvement.isEmpty then base else base ++ [focusRec improvement]
  .ok (withFocus ++ detailRecs category_scores)

/-- `get_recommendations` from src/app.py: the `try` body with the
`except` recovery to `[]`. -/
def get_recommendations (category_scores : List (String × ℚ))
    (overall_score : ℚ) : List Recommendation :=
  match getRecsExc category_scores overall_score with
  | .ok r => r
  | .error _ => []

/-- The inner loop of `validate_responses` over one category. -/
def validateLoop (category : String) : ℕ → List (Option ℤ) → List String
  | _, [] => []
  | i, none :: rest =>
    (category ++ ": Question " ++ toString (i + 1)) :: validateLoop category (i + 1) rest
  | i, some _ :: rest => validateLoop category (i + 1) rest

/-- `validate_responses` from src/app.py: collects an identifier for every
`None` answer, in response order.  It consults no catalog and checks no
lengths. -/
def validate_responses : List (String × List (Option ℤ)) → List String
  | [] => []
  | (category, answers) :: rest =>
    validateLoop category 0 answers ++ validate_responses rest

/-! ### Specification-side descriptions of the score computation -/

/-- Weighted raw sum `Σ answer_i * weight_i` over paired questions/answers. -/
def wsum : List Question → List ℤ → ℚ
  | q :: qs, a :: as => a * q.weight + wsum qs as
  | _, _ => 0

/-- Maximum weighted sum `Σ 4 * weight_i` over paired questions/answers. -/
def msum : List Question → List ℤ → ℚ
  | q :: qs, _ :: as => 4 * q.weight + msum qs as
  | _, _ => 0

/-- The per-question breakdown built by the scoring loop. -/
def qdets : List Question → List ℤ → List QuestionDetail
  | q :: qs, a :: as =>
    { question := q.question, score := a, max_score := 4,
      weighted_score := a * q.weight } :: qdets qs as
  | _, _ => []

/-- The integer values of an all-answered answer list. -/
def answerVals (answers : List (Option ℤ)) : List ℤ :=
  answers.map (fun a => a.getD 0)

/-- The unrounded normalized score of one category. -/
def normScore (qs : List Question) (vs : List ℤ) : ℚ :=
  if 0 < msum qs vs then wsum qs vs / msum qs vs * 5 else 0

/-- The detail record of one category. -/
def catDetail (qs : List Question) (vs : List ℤ) : CategoryDetail :=
  { raw_score := wsum qs vs, max_possible := msum qs vs,
    normalized_score := normScore qs vs, question_details := qdets qs vs }

/-- The catalog question list of a category (empty for unknown categories;
only used beneath a successful `lookupQ`). -/
def qsOf (category : String) : List Question :=
  (lookupQ category).getD []

theorem lookupQ_personal :
    lookupQ "Personal Connect (Do You Care About Me?)" = some personalConnectQs := rfl

theorem lookupQ_trade :
    lookupQ "Trust of Your Trade (Are You the Best?)" = some tradeQs := rfl

theorem lookupQ_social :
    lookupQ "Social Trust (Can I Trust You?)" = some socialQs := rfl

theorem lookupQ_treating :
    lookupQ "Treating Style (Are You Treating Me Differently?)" = some treatingQs := rfl

theorem qsOf_personal :
    qsOf "Personal Connect (Do You Care About Me?)" = personalConnectQs := rfl

theorem qsOf_trade :
    qsOf "Trust of Your Trade (Are You the Best?)" = tradeQs := rfl

theorem qsOf_social :
    qsOf "Social Trust (Can I Trust You?)" = socialQs := rfl

theorem qsOf_treating :
    qsOf "Treating Style (Are You Treating Me Differently?)" = treatingQs := rfl

/-- A fully answered, in-range response set covering exactly the catalog
categories: every answer present and in `[0, 4]`, one answer per catalog
question. -/
def ValidResp (responses : List (String × List (Option ℤ))) : Prop :=
  responses.map Prod.fst = QUESTIONS.map Prod.fst ∧
  ∀ p ∈ responses, ∃ qs, lookupQ p.1 = some qs ∧ p.2.length = qs.length ∧
    ∀ a ∈ p.2, ∃ v, a = some v ∧ 0 ≤ v ∧ v ≤ 4

theorem wsum_nil (qs : List Question) : wsum qs [] = 0 := by
  cases qs <;> rfl

theorem msum_nil (qs : List Question) : msum qs [] = 0 := by
  cases qs <;> rfl

theorem qdets_nil (qs : List Question) : qdets qs [] = [] := by
  cases qs <;> rfl

theorem wsum_cons (q : Question) (qs : List Question) (a : ℤ) (as : List ℤ) :
    wsum (q :: qs) (a :: as) = a * q.weight + wsum qs as := rfl

theorem msum_cons (q : Question) (qs : List Question) (a : ℤ) (as : List ℤ) :
    msum (q :: qs) (a :: as) = 4 * q.weight + msum qs as := rfl

theorem wsum_nonneg (qs : List Question) :
    ∀ vs : List ℤ, (∀ q ∈ qs, 0 ≤ q.weight) → (∀ v ∈ vs, 0 ≤ v) →
      0 ≤ wsum qs vs := by
  induction qs with
  | nil => intro vs _ _; cases vs <;> simp [wsum]
  | cons q qs ih =>
    intro vs hw hv
    cases vs with
    | nil => simp [wsum_nil]
    | cons a as =>
      rw [wsum_cons]
      have h1 : (0 : ℚ) ≤ (a : ℚ) := by exact_mod_cast hv a (List.mem_cons_self _ _)
      have h2 := hw q (List.mem_cons_self _ _)
      have h3 := ih as (fun x hx => hw x (List.mem_cons_of_mem _ hx))
        (fun x hx => hv x (List.mem_cons_of_mem _ hx))
      have := mul_nonneg h1 h2
      linarith

theorem msum_nonneg (qs : List Question) :
    ∀ vs : List ℤ, (∀ q ∈ qs, 0 ≤ q.weight) → 0 ≤ msum qs vs := by
  induction qs with
  | nil => intro vs _; cases vs <;> simp [msum]
  | cons q qs ih =>
    intro vs hw
    cases vs with
    | nil => simp [msum_nil]
    | cons a as =>
      rw [msum_cons]
      have h2 := hw q (List.mem_cons_self _ _)
      have h3 := ih as (fun x hx => hw x (List.mem_cons_of_mem _ hx))
      linarith

theorem wsum_le_msum (qs : List Question) :
    ∀ vs : List ℤ, (∀ q ∈ qs, 0 ≤ q.weight) → (∀ v ∈ vs, v ≤ 4) →
      wsum qs vs ≤ msum qs vs := by
  induction qs with
  | nil => intro vs _ _; cases vs <;> simp [wsum, msum]
  | cons q qs ih =>
    intro vs hw hv
    cases vs with
    | nil => simp [wsum_nil, msum_nil]
    | cons a as =>
      rw [wsum_cons, msum_cons]
      have h1 : (a : ℚ) ≤ 4 := by exact_mod_cast hv a (List.mem_cons_self _ _)
      have h2 := hw q (List.mem_cons_self _ _)
      have h3 := ih as (fun x hx => hw x (List.mem_cons_of_mem _ hx))
        (fun x hx => hv x (List.mem_cons_of_mem _ hx))
      have := mul_le_mul_of_nonneg_right h1 h2
      linarith

theorem msum_pos (q : Question) (qs : List Question) (a : ℤ) (as : List ℤ)
    (hw : ∀ x ∈ q :: qs, 0 < x.weight) : 0 < msum (q :: qs) (a :: as) := by
  rw [msum_cons]
  have h1 := hw q (List.mem_cons_self _ _)
  have h2 := msum_nonneg qs as (fun x hx => (hw x (List.mem_cons_of_mem _ hx)).le)
  linarith

theorem normScore_nonneg {qs : List Question} {vs : List ℤ}
    (hw : ∀ q ∈ qs, 0 ≤ q.weight) (hv : ∀ v ∈ vs, 0 ≤ v) :
    0 ≤ normScore qs vs := by
  rw [normScore]
  split_ifs with h
  · have := wsum_nonneg qs vs hw hv
    have hd : 0 ≤ wsum qs vs / msum qs vs := div_nonneg this h.le
    linarith
  · exact le_refl 0

theorem normScore_le_five {qs : List Question} {vs : List ℤ}
    (hw : ∀ q ∈ qs, 0 ≤ q.weight) (hv : ∀ v ∈ vs, v ≤ 4) :
    normScore qs vs ≤ 5 := by
  rw [normScore]
  split_ifs with h
  · have hle : wsum qs vs / msum qs vs ≤ 1 :=
      (div_le_one h).mpr (wsum_le_msum qs vs hw hv)
    linarith
  · norm_num

/-- Every catalog category has exactly 5 questions, all with positive
weight. -/
theorem questions_fact : ∀ p ∈ QUESTIONS, p.2.length = 5 ∧ ∀ q ∈ p.2, 0 < q.weight := by
  intro p hp
  fin_cases hp <;>
    exact ⟨rfl, by intro q hq; fin_cases hq <;> norm_num [QUESTIONS]⟩

theorem answerVals_length (answers : List (Option ℤ)) :
    (answerVals answers).length = answers.length :=
  List.length_map _ _

theorem answerVals_bounds {answers : List (Option ℤ)}
    (h : ∀ a ∈ answers, ∃ v, a = some v ∧ 0 ≤ v ∧ v ≤ 4) :
    ∀ v ∈ answerVals answers, 0 ≤ v ∧ v ≤ 4 := by
  intro v hv
  rw [answerVals, List.mem_map] at hv
  obtain ⟨a, ha, rfl⟩ := hv
  obtain ⟨w, rfl, h1, h2⟩ := h a ha
  exact ⟨h1, h2⟩

/-! ### Rounding lemmas -/

theorem roundHalfEven_intCast (z : ℤ) : roundHalfEven (z : ℚ) = z := by
  rw [roundHalfEven_def]
  norm_num

theorem floor_le_roundHalfEven (q : ℚ) : ⌊q⌋ ≤ roundHalfEven q := by
  rw [roundHalfEven_def]
  split_ifs <;> omega

theorem roundHalfEven_le_floor_add_one (q : ℚ) : roundHalfEven q ≤ ⌊q⌋ + 1 := by
  rw [roundHalfEven_def]
  split_ifs <;> omega

theorem roundHalfEven_le (q : ℚ) : (roundHalfEven q : ℚ) ≤ q + 1 / 2 := by
  have hle := Int.floor_le q
  have hlt := Int.lt_floor_add_one q
  rw [roundHalfEven_def]
  split_ifs <;> push_cast <;> linarith

theorem le_roundHalfEven (q : ℚ) : q - 1 / 2 ≤ (roundHalfEven q : ℚ) := by
  have hle := Int.floor_le q
  have hlt := Int.lt_floor_add_one q
  rw [roundHalfEven_def]
  split_ifs <;> push_cast <;> linarith

theorem roundHalfEven_mono {x y : ℚ} (h : x ≤ y) :
    roundHalfEven x ≤ roundHalfEven y := by
  rcases eq_or_lt_of_le (Int.floor_le_floor h) with hf | hf
  · have hxy : x - ⌊x⌋ ≤ y - ⌊x⌋ := by linarith
    rw [roundHalfEven_def, roundHalfEven_def, ← hf]
    split_ifs <;> first
      | omega
      | (exfalso; linarith)
  · calc roundHalfEven x ≤ ⌊x⌋ + 1 := roundHalfEven_le_floor_add_one x
      _ ≤ ⌊y⌋ := by omega
      _ ≤ roundHalfEven y := floor_le_roundHalfEven y

theorem round2_mono {x y : ℚ} (h : x ≤ y) : round2 x ≤ round2 y := by
  have := roundHalfEven_mono (mul_le_mul_of_nonneg_right h (by norm_num : (0:ℚ) ≤ 100))
  have hc : (roundHalfEven (x * 100) : ℚ) ≤ (roundHalfEven (y * 100) : ℚ) := by
    exact_mod_cast this
  rw [round2, round2]
  linarith

theorem round2_nonneg {x : ℚ} (h : 0 ≤ x) : 0 ≤ round2 x := by
  have h1 := le_roundHalfEven (x * 100)
  have h2 : (0 : ℤ) ≤ roundHalfEven (x * 100) := by
    by_contra hc
    push_neg at hc
    have hz : roundHalfEven (x * 100) + 1 ≤ 0 := Int.lt_iff_add_one_le.mp hc
    have : (roundHalfEven (x * 100) : ℚ) + 1 ≤ 0 := by exact_mod_cast hz
    nlinarith
  rw [round2]
  have : (0 : ℚ) ≤ (roundHalfEven (x * 100) : ℚ) := by exact_mod_cast h2
  linarith

theorem round2_le_five {x : ℚ} (h : x ≤ 5) : round2 x ≤ 5 := by
  have h1 := roundHalfEven_le (x * 100)
  have h2 : roundHalfEven (x * 100) ≤ 500 := by
    by_contra hc
    push_neg at hc
    have : (501 : ℚ) ≤ (roundHalfEven (x * 100) : ℚ) := by
      exact_mod_cast Int.lt_iff_add_one_le.mp hc
    nlinarith
  rw [round2]
  have : (roundHalfEven (x * 100) : ℚ) ≤ 500 := by exact_mod_cast h2
  linarith

theorem round2_zero : round2 0 = 0 := by
  have : roundHalfEven ((0 : ℚ) * 100) = (0 : ℤ) := by
    rw [show ((0 : ℚ) * 100) = ((0 : ℤ) : ℚ) by norm_num]
    exact roundHalfEven_intCast 0
  rw [round2, this]
  norm_num

theorem round2_five : round2 5 = 5 := by
  have : roundHalfEven ((5 : ℚ) * 100) = (500 : ℤ) := by
    rw [show ((5 : ℚ) * 100) = ((500 : ℤ) : ℚ) by norm_num]
    exact roundHalfEven_intCast 500
  rw [round2, this]
  norm_num

/-! ### Characterizing the scoring loop on well-shaped inputs -/

theorem catLoop_char (qs : List Question) :
    ∀ (answers : List (Option ℤ)) (i : ℕ),
      (∀ a ∈ answers, a ≠ none) → i + answers.length ≤ qs.length →
      catLoop qs i answers =
        .ok (wsum (qs.drop i) (answerVals answers),
             msum (qs.drop i) (answerVals answers),
             qdets (qs.drop i) (answerVals answers)) := by
  intro answers
  induction answers with
  | nil =>
    intro i _ _
    simp [catLoop, answerVals, wsum_nil, msum_nil, qdets_nil]
  | cons a rest ih =>
    intro i hall hlen
    obtain ⟨v, rfl⟩ : ∃ v, a = some v := by
      cases a with
      | none => exact absurd rfl (hall none (List.mem_cons_self _ _))
      | some v => exact ⟨v, rfl⟩
    have hi : i < qs.length := by
      simp only [List.length_cons] at hlen
      omega
    have hrest : i + 1 + rest.length ≤ qs.length := by
      simp only [List.length_cons] at hlen
      omega
    rw [catLoop, List.getElem?_eq_getElem hi,
        ih (i + 1) (fun x hx => hall x (List.mem_cons_of_mem _ hx)) hrest,
        List.drop_eq_getElem_cons hi]
    simp [wsum, msum, qdets, answerVals]

theorem lookup_mem {l : List (String × α)} {c : String} {v : α}
    (h : l.lookup c = some v) : (c, v) ∈ l := by
  induction l with
  | nil => simp [List.lookup] at h
  | cons p rest ih =>
    rw [List.lookup] at h
    cases hc : c == p.1 with
    | true =>
      simp only [hc] at h
      have hceq : c = p.1 := by simpa using hc
      simp only [Option.some.injEq] at h
      have hp : (c, v) = p := by
        rw [hceq, ← h]
      rw [hp]
      exact List.mem_cons_self _ _
    | false =>
      simp only [hc] at h
      exact List.mem_cons_of_mem _ (ih h)

/-- Entry precondition for the scoring loop to succeed: known category,
every answer present, answer list not longer than the question list. -/
def EntryOK (p : String × List (Option ℤ)) : Prop :=
  (lookupQ p.1).isSome ∧ p.2.length ≤ (qsOf p.1).length ∧ ∀ a ∈ p.2, a ≠ none

theorem scoreCats_char (responses : List (String × List (Option ℤ)))
    (h : ∀ p ∈ responses, EntryOK p) :
    scoreCatsWith QUESTIONS responses =
      .ok (responses.map (fun p => (p.1, round2 (normScore (qsOf p.1) (answerVals p.2)))),
           responses.map (fun p => (p.1, catDetail (qsOf p.1) (answerVals p.2)))) := by
  induction responses with
  | nil => rfl
  | cons p rest ih =>
    obtain ⟨c, answers⟩ := p
    obtain ⟨hlk, hlen, hall⟩ := h _ (List.mem_cons_self _ _)
    obtain ⟨qs, hqs⟩ := Option.isSome_iff_exists.mp hlk
    have hqs' : QUESTIONS.lookup c = some qs := hqs
    have hqsOf : qsOf c = qs := by
      rw [qsOf, lookupQ, hqs']
      rfl
    have hlen0 : 0 + answers.length ≤ qs.length := by
      simp only at hlen
      rw [hqsOf] at hlen
      omega
    rw [scoreCatsWith]
    simp only [hqs', catLoop_char qs answers 0 hall hlen0, List.drop_zero,
               ih (fun x hx => h x (List.mem_cons_of_mem _ hx)),
               List.map_cons, normScore, catDetail, hqsOf]

/-- `calculate_scores` on well-shaped responses: per-category rounded
normalized scores, detail records, and the rounded mean of the rounded
per-category scores. -/
theorem calculate_scores_char (responses : List (String × List (Option ℤ)))
    (h : ∀ p ∈ responses, EntryOK p) :
    calculate_scores responses =
      (responses.map (fun p => (p.1, round2 (normScore (qsOf p.1) (answerVals p.2)))),
       round2 (if responses.isEmpty then 0
         else (responses.map (fun p => round2 (normScore (qsOf p.1) (answerVals p.2)))).sum /
           responses.length),
       responses.map (fun p => (p.1, catDetail (qsOf p.1) (answerVals p.2)))) := by
  rw [calculate_scores, calcScoresExcWith, scoreCats_char responses h]
  have hmap : (responses.map (fun p => (p.1, round2 (normScore (qsOf p.1) (answerVals p.2))))).map
      Prod.snd = responses.map (fun p => round2 (normScore (qsOf p.1) (answerVals p.2))) := by
    rw [List.map_map]
    rfl
  simp only [hmap, List.isEmpty_eq_true, List.map_eq_nil_iff, List.length_map]

/-! ### Valid response sets -/

theorem valid_entry {responses : List (String × List (Option ℤ))}
    (h : ValidResp responses) {p : String × List (Option ℤ)} (hp : p ∈ responses) :
    ∃ qs, lookupQ p.1 = some qs ∧ qsOf p.1 = qs ∧ p.2.length = qs.length ∧
      qs.length = 5 ∧ (∀ q ∈ qs, 0 < q.weight) ∧
      (∀ a ∈ p.2, ∃ v, a = some v ∧ 0 ≤ v ∧ v ≤ 4) := by
  obtain ⟨qs, hqs, hlen, hall⟩ := h.2 p hp
  have hmem : (p.1, qs) ∈ QUESTIONS := lookup_mem hqs
  have hf := questions_fact _ hmem
  exact ⟨qs, hqs, by rw [qsOf, hqs]; rfl, hlen, hf.1, hf.2, hall⟩

theorem valid_entryOK {responses : List (String × List (Option ℤ))}
    (h : ValidResp responses) : ∀ p ∈ responses, EntryOK p := by
  intro p hp
  obtain ⟨qs, hqs, hqsOf, hlen, _, _, hall⟩ := valid_entry h hp
  refine ⟨by rw [hqs]; rfl, by rw [hqsOf, ← hlen], ?_⟩
  intro a ha
  obtain ⟨v, rfl, _⟩ := hall a ha
  simp

theorem valid_length {responses : List (String × List (Option ℤ))}
    (h : ValidResp responses) : responses.length = 4 := by
  have := congrArg List.length h.1
  simpa using this

/-- A fully answered response set with the same value everywhere. -/
def allAnswers (v : ℤ) : List (String × List (Option ℤ)) :=
  [("Personal Connect (Do You Care About Me?)", List.replicate 5 (some v)),
   ("Trust of Your Trade (Are You the Best?)", List.replicate 5 (some v)),
   ("Social Trust (Can I Trust You?)", List.replicate 5 (some v)),
   ("Treating Style (Are You Treating Me Differently?)", List.replicate 5 (some v))]

theorem allAnswers_valid {v : ℤ} (h0 : 0 ≤ v) (h4 : v ≤ 4) :
    ValidResp (allAnswers v) := by
  constructor
  · rfl
  · intro p hp
    have hrep : ∀ a ∈ List.replicate 5 (some v), ∃ w, a = some w ∧ 0 ≤ w ∧ w ≤ 4 := by
      intro a ha
      rw [List.eq_of_mem_replicate ha]
      exact ⟨v, rfl, h0, h4⟩
    fin_cases hp <;> exact ⟨_, rfl, rfl, hrep⟩

theorem valid_normScore_bounds {responses : List (String × List (Option ℤ))}
    (h : ValidResp responses) :
    ∀ x ∈ responses, 0 ≤ normScore (qsOf x.1) (answerVals x.2) ∧
      normScore (qsOf x.1) (answerVals x.2) ≤ 5 := by
  intro x hx
  obtain ⟨qs, hqs, hqsOf, hlen, hlen5, hwpos, hall⟩ := valid_entry h hx
  have hb := answerVals_bounds hall
  rw [hqsOf]
  exact ⟨normScore_nonneg (fun q hq => (hwpos q hq).le) (fun v hv => (hb v hv).1),
         normScore_le_five (fun q hq => (hwpos q hq).le) (fun v hv => (hb v hv).2)⟩

/-- C4: for every valid ResponseSet (every answer present and in [0, 4],
one answer per catalog question), every per-category normalized score
returned by `calculate_scores` (both the rounded score-mapping entry and
the unrounded detail entry) lies in [0, 5], and the overall score lies in
[0, 5]. -/
theorem c4_scores_in_range (responses : List (String × List (Option ℤ)))
    (h : ValidResp responses) :
    ∃ cs o ds, calculate_scores responses = (cs, o, ds) ∧
      (∀ p ∈ cs, 0 ≤ p.2 ∧ p.2 ≤ 5) ∧
      (∀ p ∈ ds, 0 ≤ (p.2).normalized_score ∧ (p.2).normalized_score ≤ 5) ∧
      0 ≤ o ∧ o ≤ 5 := by
  have hchar := calculate_scores_char responses (valid_entryOK h)
  have hnorm := valid_normScore_bounds h
  refine ⟨_, _, _, hchar, ?_, ?_, ?_, ?_⟩
  · intro p hp
    rw [List.mem_map] at hp
    obtain ⟨x, hx, rfl⟩ := hp
    exact ⟨round2_nonneg (hnorm x hx).1, round2_le_five (hnorm x hx).2⟩
  · intro p hp
    rw [List.mem_map] at hp
    obtain ⟨x, hx, rfl⟩ := hp
    simpa [catDetail] using hnorm x hx
  · apply round2_nonneg
    split_ifs with he
    · exact le_refl 0
    · apply div_nonneg _ (Nat.cast_nonneg _)
      apply List.sum_nonneg
      intro y hy
      rw [List.mem_map] at hy
      obtain ⟨x, hx, rfl⟩ := hy
      exact round2_nonneg (hnorm x hx).1
  · apply round2_le_five
    split_ifs with he
    · norm_num
    · have hlenpos : (0 : ℚ) < responses.length := by
        rw [valid_length h]
        norm_num
      rw [div_le_iff₀ hlenpos]
      have hsum := List.sum_le_card_nsmul
        (responses.map fun p => round2 (normScore (qsOf p.1) (answerVals p.2))) 5
        (by
          intro x hx
          rw [List.mem_map] at hx
          obtain ⟨y, hy, rfl⟩ := hx
          exact round2_le_five (hnorm y hy).2)
      rw [List.length_map, nsmul_eq_mul] at hsum
      linarith

/-- Closed instantiation of `c4_scores_in_range` at the all-zeros response
set. -/
theorem c4_scores_in_range_witness :
    ValidResp (allAnswers 0) ∧
    ∃ cs o ds, calculate_scores (allAnswers 0) = (cs, o, ds) ∧
      (∀ p ∈ cs, 0 ≤ p.2 ∧ p.2 ≤ 5) ∧
      (∀ p ∈ ds, 0 ≤ (p.2).normalized_score ∧ (p.2).normalized_score ≤ 5) ∧
      0 ≤ o ∧ o ≤ 5 :=
  ⟨allAnswers_valid (by norm_num) (by norm_num),
   c4_scores_in_range (allAnswers 0) (allAnswers_valid (by norm_num) (by norm_num))⟩

theorem all_some_eq (answers : List (Option ℤ))
    (h : ∀ a ∈ answers, ∃ v, a = some v ∧ 0 ≤ v ∧ v ≤ 4) :
    answers = (answerVals answers).map some := by
  induction answers with
  | nil => rfl
  | cons a rest ih =>
    obtain ⟨v, rfl, _⟩ := h a (List.mem_cons_self _ _)
    rw [answerVals, List.map_cons, List.map_cons, Option.getD_some]
    rw [show (List.map (fun a => a.getD 0) rest) = answerVals rest from rfl]
    rw [← ih (fun x hx => h x (List.mem_cons_of_mem _ hx))]

theorem msum_pos_of_ne_nil (qs : List Question) (vs : List ℤ)
    (hq : qs ≠ []) (hv : vs ≠ []) (hw : ∀ q ∈ qs, 0 < q.weight) :
    0 < msum qs vs := by
  cases qs with
  | nil => exact absurd rfl hq
  | cons q qs =>
    cases vs with
    | nil => exact absurd rfl hv
    | cons v vs => exact msum_pos q qs v vs hw

/-- C10: on every valid ResponseSet, the score mapping and detail mapping
are mutually consistent: `raw_score = Σ answer_i * weight_i`,
`max_possible = Σ 4 * weight_i`, the stored `normalized_score` is the
unrounded `raw_score / max_possible * 5`, and the score-mapping entry is
that value rounded to 2 decimals. -/
theorem c10_detail_consistency (responses : List (String × List (Option ℤ)))
    (h : ValidResp responses) :
    ∃ cs o ds, calculate_scores responses = (cs, o, ds) ∧
      ∀ p ∈ responses, ∃ qs vs,
        lookupQ p.1 = some qs ∧ p.2 = vs.map some ∧
        (p.1, catDetail qs vs) ∈ ds ∧
        (catDetail qs vs).raw_score = wsum qs vs ∧
        (catDetail qs vs).max_possible = msum qs vs ∧
        (catDetail qs vs).normalized_score = wsum qs vs / msum qs vs * 5 ∧
        (p.1, round2 ((catDetail qs vs).normalized_score)) ∈ cs := by
  have hchar := calculate_scores_char responses (valid_entryOK h)
  refine ⟨_, _, _, hchar, ?_⟩
  intro p hp
  obtain ⟨qs, hqs, hqsOf, hlen, hlen5, hwpos, hall⟩ := valid_entry h hp
  have hpos : 0 < msum qs (answerVals p.2) := by
    apply msum_pos_of_ne_nil _ _ _ _ hwpos
    · intro hnil
      rw [hnil] at hlen5
      simp at hlen5
    · intro hnil
      have := congrArg List.length hnil
      rw [answerVals_length, hlen, hlen5] at this
      simp at this
  have hns : normScore qs (answerVals p.2) =
      wsum qs (answerVals p.2) / msum qs (answerVals p.2) * 5 := by
    rw [normScore, if_pos hpos]
  refine ⟨qs, answerVals p.2, hqs, all_some_eq p.2 hall, ?_, rfl, rfl, ?_, ?_⟩
  · have := List.mem_map_of_mem
      (fun x => (x.1, catDetail (qsOf x.1) (answerVals x.2))) hp
    simpa [hqsOf] using this
  · rw [show (catDetail qs (answerVals p.2)).normalized_score =
        normScore qs (answerVals p.2) from rfl]
    exact hns
  · have := List.mem_map_of_mem
      (fun x => (x.1, round2 (normScore (qsOf x.1) (answerVals x.2)))) hp
    rw [show (catDetail qs (answerVals p.2)).normalized_score =
        normScore qs (answerVals p.2) from rfl]
    simpa [hqsOf] using this

/-- Closed instantiation of `c10_detail_consistency` at the all-threes
response set. -/
theorem c10_detail_consistency_witness :
    ValidResp (allAnswers 3) ∧
    ∃ cs o ds, calculate_scores (allAnswers 3) = (cs, o, ds) ∧
      ∀ p ∈ allAnswers 3, ∃ qs vs,
        lookupQ p.1 = some qs ∧ p.2 = vs.map some ∧
        (p.1, catDetail qs vs) ∈ ds ∧
        (catDetail qs vs).raw_score = wsum qs vs ∧
        (catDetail qs vs).max_possible = msum qs vs ∧
        (catDetail qs vs).normalized_score = wsum qs vs / msum qs vs * 5 ∧
        (p.1, round2 ((catDetail qs vs).normalized_score)) ∈ cs :=
  ⟨allAnswers_valid (by norm_num) (by norm_num),
   c10_detail_consistency (allAnswers 3)
     (allAnswers_valid (by norm_num) (by norm_num))⟩

/-! ### C1: how the overall score is rounded -/

/-- C1 (amended): whenever `calculate_scores` succeeds with a non-empty
score mapping, the overall score is `round2` of the mean of the
per-category scores that were already rounded to 2 decimals (the code
averages `category_scores.values()`, which are rounded). -/
theorem c1_overall_mean_of_rounded (responses : List (String × List (Option ℤ)))
    (cs : List (String × ℚ)) (o : ℚ) (ds : List (String × CategoryDetail))
    (h : calculate_scores responses = (cs, o, ds)) (hne : cs ≠ []) :
    o = round2 ((cs.map Prod.snd).sum / cs.length) := by
  rw [calculate_scores] at h
  cases hsc : scoreCatsWith QUESTIONS responses with
  | error e =>
    rw [calcScoresExcWith, hsc] at h
    simp only at h
    obtain ⟨rfl, rfl, rfl⟩ : [] = cs ∧ 0 = o ∧ [] = ds := by
      constructor
      · exact congrArg (fun t => t.1) h
      · exact ⟨congrArg (fun t => t.2.1) h, congrArg (fun t => t.2.2) h⟩
    exact absurd rfl hne
  | ok pair =>
    obtain ⟨cs0, ds0⟩ := pair
    rw [calcScoresExcWith] at h
    simp only [hsc] at h
    obtain ⟨rfl, rfl, rfl⟩ : cs0 = cs ∧
        round2 (if cs0.isEmpty then 0 else (cs0.map Prod.snd).sum / cs0.length) = o ∧
        ds0 = ds := by
      refine ⟨congrArg (fun t => t.1) h, congrArg (fun t => t.2.1) h,
        congrArg (fun t => t.2.2) h⟩
    rw [if_neg (by simpa [List.isEmpty_eq_true] using hne)]

/-- Closed instantiation of `c1_overall_mean_of_rounded` on a one-category
response set. -/
theorem c1_overall_mean_of_rounded_witness :
    ∃ cs o ds,
      calculate_scores [("Personal Connect (Do You Care About Me?)",
        [some 0, some 0, some 0, some 0, some 0])] = (cs, o, ds) ∧
      cs ≠ [] ∧ o = round2 ((cs.map Prod.snd).sum / cs.length) := by
  have hOK : ∀ p ∈ [("Personal Connect (Do You Care About Me?)",
      [some (0:ℤ), some 0, some 0, some 0, some 0])], EntryOK p := by
    intro p hp
    fin_cases hp
    exact ⟨by rw [lookupQ_personal]; rfl,
      by rw [qsOf_personal]; simp [personalConnectQs],
      by intro a ha; fin_cases ha <;> simp⟩
  have hval := calculate_scores_char _ hOK
  exact ⟨_, _, _, hval, by simp,
    c1_overall_mean_of_rounded _ _ _ _ hval (by simp)⟩

/-- The response set on which double rounding shifts the overall score. -/
def c1Responses : List (String × List (Option ℤ)) :=
  [("Personal Connect (Do You Care About Me?)",
    [some 4, some 4, some 4, some 2, some 3]),
   ("Trust of Your Trade (Are You the Best?)",
    [some 1, some 2, some 3, some 0, some 1]),
   ("Social Trust (Can I Trust You?)",
    [some 3, some 2, some 4, some 0, some 2]),
   ("Treating Style (Are You Treating Me Differently?)",
    [some 4, some 4, some 4, some 4, some 1])]

theorem c1Responses_entryOK : ∀ p ∈ c1Responses, EntryOK p := by
  intro p hp
  fin_cases hp
  · exact ⟨by rw [lookupQ_personal]; rfl,
      by rw [qsOf_personal]; simp [personalConnectQs],
      by intro a ha; fin_cases ha <;> simp⟩
  · exact ⟨by rw [lookupQ_trade]; rfl,
      by rw [qsOf_trade]; simp [tradeQs],
      by intro a ha; fin_cases ha <;> simp⟩
  · exact ⟨by rw [lookupQ_social]; rfl,
      by rw [qsOf_social]; simp [socialQs],
      by intro a ha; fin_cases ha <;> simp⟩
  · exact ⟨by rw [lookupQ_treating]; rfl,
      by rw [qsOf_treating]; simp [treatingQs],
      by intro a ha; fin_cases ha <;> simp⟩

/-- C1 (counterexample): on `c1Responses` the code returns overall score
3.25, but the 2-decimal rounding of the mean of the unrounded per-category
normalized scores is 3.24; the overall score is not the once-rounded mean
of the unrounded scores. -/
theorem c1_counterexample :
    (calculate_scores c1Responses).2.1 = 13 / 4 ∧
    round2 ((((calculate_scores c1Responses).2.2).map
        (fun p => (p.2).normalized_score)).sum /
      ((calculate_scores c1Responses).2.2).length) = 81 / 25 ∧
    (13 : ℚ) / 4 ≠ 81 / 25 := by
  rw [calculate_scores_char c1Responses c1Responses_entryOK]
  refine ⟨?_, ?_, by norm_num⟩
  · simp only [c1Responses, List.map_cons, List.map_nil,
      qsOf_personal, qsOf_trade, qsOf_social, qsOf_treating]
    norm_num [personalConnectQs, tradeQs, socialQs, treatingQs, normScore,
      answerVals, wsum, msum, round2, roundHalfEven, Rat.floor_def']
  · simp only [c1Responses, List.map_cons, List.map_nil,
      qsOf_personal, qsOf_trade, qsOf_social, qsOf_treating]
    norm_num [personalConnectQs, tradeQs, socialQs, treatingQs, normScore,
      answerVals, catDetail, wsum, msum, round2, roundHalfEven, Rat.floor_def']

/-! ### C2: what validate_responses checks -/

theorem validateLoop_eq_nil (category : String) :
    ∀ (answers : List (Option ℤ)) (i : ℕ),
      validateLoop category i answers = [] ↔ ∀ a ∈ answers, a ≠ none := by
  intro answers
  induction answers with
  | nil => intro i; simp [validateLoop]
  | cons a rest ih =>
    intro i
    cases a with
    | none => simp [validateLoop]
    | some v => simp [validateLoop, ih (i + 1)]

/-- C2 (amended): `validate_responses` returns the empty list if and only
if every entry of every answer list is non-null.  It never consults the
catalog: answer-list lengths are not compared with question counts. -/
theorem c2_empty_iff_all_answered (responses : List (String × List (Option ℤ))) :
    validate_responses responses = [] ↔ ∀ p ∈ responses, ∀ a ∈ p.2, a ≠ none := by
  induction responses with
  | nil => simp [validate_responses]
  | cons p rest ih =>
    obtain ⟨c, answers⟩ := p
    rw [validate_responses, List.append_eq_nil]
    simp only [List.mem_cons]
    constructor
    · rintro ⟨h1, h2⟩
      intro x hx
      rcases hx with rfl | hx
      · exact (validateLoop_eq_nil c answers 0).mp h1
      · exact ih.mp h2 x hx
    · intro h
      exact ⟨(validateLoop_eq_nil c answers 0).mpr (h _ (Or.inl rfl)),
        ih.mpr fun x hx => h x (Or.inr hx)⟩

/-- C2 (counterexample): a two-answer list for a five-question category
passes validation: `validate_responses` returns `[]` although the answer
list length (2) differs from the catalog question count (5). -/
theorem c2_counterexample :
    validate_responses [("Personal Connect (Do You Care About Me?)",
      [some 0, some 1])] = [] ∧
    lookupQ "Personal Connect (Do You Care About Me?)" = some personalConnectQs ∧
    personalConnectQs.length = 5 ∧
    ([some (0:ℤ), some 1] : List (Option ℤ)).length = 2 ∧
    (2 : ℕ) ≠ 5 :=
  ⟨rfl, lookupQ_personal, rfl, rfl, by norm_num⟩

/-! ### C3: recommendation tier thresholds -/

/-- Modelled from the spec tier table: highest qualifying tier wins, lower
bounds inclusive, evaluated high to low. -/
def specTierLabel (overallScore : ℚ) : String :=
  if overallScore ≥ 4.5 then "Excellent"
  else if overallScore ≥ 4.0 then "Very Good"
  else if overallScore ≥ 3.5 then "Good"
  else if overallScore ≥ 3.0 then "Fair"
  else "Needs Improvement"

/-- C3: for every overall score, `get_recommendations` places at index 0 a
tier entry whose level is chosen by first match high to low with inclusive
lower bounds; in particular 4.5 maps to "Excellent", 4.49999 to
"Very Good", 3.0 to "Fair" and 2.9999 to "Needs Improvement". -/
theorem c3_tier_thresholds :
    (∀ (category_scores : List (String × ℚ)) (overall_score : ℚ),
      ∃ msg icon, (get_recommendations category_scores overall_score).head? =
        some (.general (specTierLabel overall_score) msg icon)) ∧
    specTierLabel 4.5 = "Excellent" ∧
    specTierLabel 4.49999 = "Very Good" ∧
    specTierLabel 4.0 = "Very Good" ∧
    specTierLabel 3.5 = "Good" ∧
    specTierLabel 3.0 = "Fair" ∧
    specTierLabel 2.9999 = "Needs Improvement" := by
  refine ⟨?_, by norm_num [specTierLabel], by norm_num [specTierLabel],
    by norm_num [specTierLabel], by norm_num [specTierLabel],
    by norm_num [specTierLabel], by norm_num [specTierLabel]⟩
  intro category_scores overall_score
  have hhead : (get_recommendations category_scores overall_score).head? =
      some (overallRec overall_score) := by
    rw [get_recommendations, getRecsExc]
    split_ifs <;> simp
  rw [hhead, overallRec, specTierLabel]
  split_ifs <;> exact ⟨_, _, rfl⟩

/-! ### C7: fault recovery -/

/-- C7: neither scoring nor recommendation generation propagates a failure:
`calculate_scores` either returns the successful result of its body or the
safe default `([], 0, [])` (as on an unknown category name or an overlong
answer list), and `get_recommendations` either returns the successful
result of its body or `[]`. -/
theorem c7_faults_recovered :
    (∀ responses : List (String × List (Option ℤ)),
      (∃ r, calcScoresExc responses = .ok r ∧ calculate_scores responses = r) ∨
      (calcScoresExc responses = .error () ∧
        calculate_scores responses = ([], 0, []))) ∧
    calculate_scores [("Unknown Category", [some 1])] = ([], 0, []) ∧
    calculate_scores [("Personal Connect (Do You Care About Me?)",
      [some 1, some 1, some 1, some 1, some 1, some 1])] = ([], 0, []) ∧
    (∀ (category_scores : List (String × ℚ)) (overall_score : ℚ),
      (∃ l, getRecsExc category_scores overall_score = .ok l ∧
        get_recommendations category_scores overall_score = l) ∨
      (getRecsExc category_scores overall_score = .error () ∧
        get_recommendations category_scores overall_score = [])) := by
  refine ⟨?_, rfl, rfl, ?_⟩
  · intro responses
    cases h : calcScoresExcWith QUESTIONS responses with
    | ok r =>
      left
      exact ⟨r, h, by rw [calculate_scores]; simp only [h]⟩
    | error e =>
      right
      cases e
      exact ⟨h, by rw [calculate_scores]; simp only [h]⟩
  · intro category_scores overall_score
    left
    exact ⟨_, rfl, rfl⟩

/-! ### C9: no range check on answer values -/

/-- An out-of-range answer (8) in a full-length answer list. -/
def c9Responses : List (String × List (Option ℤ)) :=
  [("Personal Connect (Do You Care About Me?)",
    [some 8, some 4, some 4, some 4, some 4])]

/-- C9: answer values are not range-checked: a full-length answer list
containing the answer 8 passes `validate_responses`, and
`calculate_scores` then returns a normalized score strictly greater than
5 for that category (both unrounded and rounded). -/
theorem c9_no_range_check :
    validate_responses c9Responses = [] ∧
    ∃ cs o ds, calculate_scores c9Responses = (cs, o, ds) ∧
      ∃ s d, cs = [("Personal Connect (Do You Care About Me?)", s)] ∧
        ds = [("Personal Connect (Do You Care About Me?)", d)] ∧
        5 < d.normalized_score ∧ 5 < s := by
  have hOK : ∀ p ∈ c9Responses, EntryOK p := by
    intro p hp
    fin_cases hp
    exact ⟨by rw [lookupQ_personal]; rfl,
      by rw [qsOf_personal]; simp [personalConnectQs],
      by intro a ha; fin_cases ha <;> simp⟩
  have hchar := calculate_scores_char c9Responses hOK
  refine ⟨rfl, _, _, _, hchar,
    round2 (normScore (qsOf "Personal Connect (Do You Care About Me?)")
      (answerVals [some 8, some 4, some 4, some 4, some 4])),
    catDetail (qsOf "Personal Connect (Do You Care About Me?)")
      (answerVals [some 8, some 4, some 4, some 4, some 4]),
    by simp [c9Responses], by simp [c9Responses], ?_, ?_⟩
  · rw [qsOf_personal]
    norm_num [personalConnectQs, normScore, answerVals, wsum, msum, catDetail]
  · rw [qsOf_personal]
    norm_num [personalConnectQs, normScore, answerVals, wsum, msum, round2,
      roundHalfEven, Rat.floor_def']

/-! ### C6: focus areas and per-category action entries -/

theorem shortName_personal :
    shortName "Personal Connect (Do You Care About Me?)" = "Personal Connect" := rfl

theorem shortName_trade :
    shortName "Trust of Your Trade (Are You the Best?)" = "Trust of Your Trade" := rfl

theorem shortName_social :
    shortName "Social Trust (Can I Trust You?)" = "Social Trust" := rfl

theorem shortName_treating :
    shortName "Treating Style (Are You Treating Me Differently?)" = "Treating Style" := rfl

theorem categoryActions_personal :
    categoryActions "Personal Connect (Do You Care About Me?)" =
      some personalConnectActions := rfl

theorem categoryActions_trade :
    categoryActions "Trust of Your Trade (Are You the Best?)" =
      some tradeActions := rfl

theorem categoryActions_social :
    categoryActions "Social Trust (Can I Trust You?)" =
      some socialTrustActions := rfl

theorem categoryActions_treating :
    categoryActions "Treating Style (Are You Treating Me Differently?)" =
      some treatingStyleActions := rfl

/-- C6: over the standard catalog names, `get_recommendations` is the tier
entry followed, exactly when some category scores below 4.0, by one
"Focus Areas" entry naming the below-4.0 categories by short name in
catalog order, followed by one category-detail entry per below-4.0
category in catalog order carrying that category's fixed list of 5
actions; if no category is below 4.0 neither kind of entry appears. -/
theorem c6_focus_areas (overall s1 s2 s3 s4 : ℚ) :
    get_recommendations
      [("Personal Connect (Do You Care About Me?)", s1),
       ("Trust of Your Trade (Are You the Best?)", s2),
       ("Social Trust (Can I Trust You?)", s3),
       ("Treating Style (Are You Treating Me Differently?)", s4)] overall =
    (overallRec overall ::
      ((if s1 < 4 ∨ s2 < 4 ∨ s3 < 4 ∨ s4 < 4 then
          [Recommendation.general "Focus Areas"
            ("Priority areas for improvement: " ++ String.intercalate ", "
              ((if s1 < 4 then ["Personal Connect"] else []) ++
               (if s2 < 4 then ["Trust of Your Trade"] else []) ++
               (if s3 < 4 then ["Social Trust"] else []) ++
               (if s4 < 4 then ["Treating Style"] else [])))
            "🎯"]
        else []) ++
       ((if s1 < 4 then [Recommendation.forCategory
           "Personal Connect (Do You Care About Me?)" s1 personalConnectActions]
         else []) ++
        ((if s2 < 4 then [Recommendation.forCategory
            "Trust of Your Trade (Are You the Best?)" s2 tradeActions]
          else []) ++
         ((if s3 < 4 then [Recommendation.forCategory
             "Social Trust (Can I Trust You?)" s3 socialTrustActions]
           else []) ++
          (if s4 < 4 then [Recommendation.forCategory
             "Treating Style (Are You Treating Me Differently?)" s4 treatingStyleActions]
           else [])))))) ∧
    personalConnectActions.length = 5 ∧ tradeActions.length = 5 ∧
    socialTrustActions.length = 5 ∧ treatingStyleActions.length = 5 := by
  refine ⟨?_, rfl, rfl, rfl, rfl⟩
  have h40 : (4.0 : ℚ) = 4 := by norm_num
  by_cases h1 : s1 < 4 <;> by_cases h2 : s2 < 4 <;> by_cases h3 : s3 < 4 <;>
    by_cases h4 : s4 < 4 <;>
    simp [get_recommendations, getRecsExc, improvementCategories, detailRecs,
      focusRec, categoryActions_personal, categoryActions_trade,
      categoryActions_social, categoryActions_treating, shortName_personal,
      shortName_trade, shortName_social, shortName_treating, h40, h1, h2, h3, h4]

/-! ### C5: extreme answers give exactly 5.0 and 0.0 -/

/-- `calculate_scores` generalized over the catalog it reads (the Python
body reads the global `QUESTIONS`; the claim quantifies over the weights). -/
def calculate_scoresWith (catalog : List (String × List Question))
    (responses : List (String × List (Option ℤ))) :
    (List (String × ℚ)) × ℚ × (List (String × CategoryDetail)) :=
  match calcScoresExcWith catalog responses with
  | .ok r => r
  | .error _ => ([], 0, [])

theorem calculate_scores_eq_with (responses : List (String × List (Option ℤ))) :
    calculate_scores responses = calculate_scoresWith QUESTIONS responses := rfl

theorem round2_round2 (x : ℚ) : round2 (round2 x) = round2 x := by
  have h : (round2 x) * 100 = ((roundHalfEven (x * 100) : ℤ) : ℚ) := by
    rw [round2]
    field_simp
  conv_lhs => rw [round2, h, roundHalfEven_intCast]
  rw [round2]

theorem calc_single (name : String) (qs : List Question)
    (answers : List (Option ℤ)) (hall : ∀ a ∈ answers, a ≠ none)
    (hlen : answers.length ≤ qs.length) :
    calculate_scoresWith [(name, qs)] [(name, answers)] =
      ([(name, round2 (normScore qs (answerVals answers)))],
       round2 (normScore qs (answerVals answers)),
       [(name, catDetail qs (answerVals answers))]) := by
  have hlk : (([(name, qs)] : List (String × List Question)).lookup name) = some qs := by
    simp [List.lookup]
  rw [calculate_scoresWith, calcScoresExcWith, scoreCatsWith]
  simp only [hlk, catLoop_char qs answers 0 hall (by omega), List.drop_zero,
    scoreCatsWith]
  simp only [List.isEmpty_cons, List.map_cons, List.map_nil, List.sum_cons,
    List.sum_nil, List.length_cons, List.length_nil, normScore, catDetail]
  norm_num [round2_round2]

theorem c5_weights_pos_mem {q1 q2 q3 q4 q5 : Question}
    (h1 : 0 < q1.weight) (h2 : 0 < q2.weight) (h3 : 0 < q3.weight)
    (h4 : 0 < q4.weight) (h5 : 0 < q5.weight) :
    ∀ x ∈ [q1, q2, q3, q4, q5], 0 < x.weight := by
  intro x hx
  fin_cases hx <;> assumption

/-- C5: for every category shape of the standard catalog (5 questions) and
every positive choice of per-question weights, an all-4 answer list yields
category score and normalized score exactly 5.0, and an all-0 answer list
yields exactly 0.0; every standard-catalog category has this shape. -/
theorem c5_extreme_scores (name : String) (q1 q2 q3 q4 q5 : Question)
    (h1 : 0 < q1.weight) (h2 : 0 < q2.weight) (h3 : 0 < q3.weight)
    (h4 : 0 < q4.weight) (h5 : 0 < q5.weight) :
    (calculate_scoresWith [(name, [q1, q2, q3, q4, q5])]
        [(name, List.replicate 5 (some 4))] =
       ([(name, 5)], 5,
        [(name, catDetail [q1, q2, q3, q4, q5] [4, 4, 4, 4, 4])]) ∧
     (catDetail [q1, q2, q3, q4, q5] [4, 4, 4, 4, 4]).normalized_score = 5) ∧
    (calculate_scoresWith [(name, [q1, q2, q3, q4, q5])]
        [(name, List.replicate 5 (some 0))] =
       ([(name, 0)], 0,
        [(name, catDetail [q1, q2, q3, q4, q5] [0, 0, 0, 0, 0])]) ∧
     (catDetail [q1, q2, q3, q4, q5] [0, 0, 0, 0, 0]).normalized_score = 0) ∧
    (∀ p ∈ QUESTIONS, p.2.length = 5 ∧ ∀ q ∈ p.2, 0 < q.weight) := by
  have hw := c5_weights_pos_mem h1 h2 h3 h4 h5
  have hpos4 : 0 < msum [q1, q2, q3, q4, q5] [4, 4, 4, 4, 4] :=
    msum_pos q1 [q2, q3, q4, q5] 4 [4, 4, 4, 4] hw
  have hpos0 : 0 < msum [q1, q2, q3, q4, q5] [0, 0, 0, 0, 0] :=
    msum_pos q1 [q2, q3, q4, q5] 0 [0, 0, 0, 0] hw
  have hN4 : normScore [q1, q2, q3, q4, q5] [4, 4, 4, 4, 4] = 5 := by
    have heq : wsum [q1, q2, q3, q4, q5] [4, 4, 4, 4, 4] =
        msum [q1, q2, q3, q4, q5] [4, 4, 4, 4, 4] := by
      simp [wsum, msum]
    rw [normScore, if_pos hpos4, heq, div_self (ne_of_gt hpos4)]
    norm_num
  have hN0 : normScore [q1, q2, q3, q4, q5] [0, 0, 0, 0, 0] = 0 := by
    have heq : wsum [q1, q2, q3, q4, q5] [0, 0, 0, 0, 0] = 0 := by
      simp [wsum]
    rw [normScore, if_pos hpos0, heq]
    norm_num
  have hAV4 : answerVals (List.replicate 5 (some (4:ℤ))) = [4, 4, 4, 4, 4] := rfl
  have hAV0 : answerVals (List.replicate 5 (some (0:ℤ))) = [0, 0, 0, 0, 0] := rfl
  have hrep : ∀ (v : ℤ) (a : Option ℤ), a ∈ List.replicate 5 (some v) → a ≠ none := by
    intro v a ha
    rw [List.eq_of_mem_replicate ha]
    simp
  refine ⟨⟨?_, hN4⟩, ⟨?_, hN0⟩, questions_fact⟩
  · rw [calc_single name [q1, q2, q3, q4, q5] (List.replicate 5 (some 4))
      (hrep 4) (by simp), hAV4, hN4, round2_five]
  · rw [calc_single name [q1, q2, q3, q4, q5] (List.replicate 5 (some 0))
      (hrep 0) (by simp), hAV0, hN0, round2_zero]

/-- A question with weight 1, for instantiating `c5_extreme_scores`. -/
def unitQuestion : Question :=
  { question := "q", options := [], weight := 1 }

/-- Closed instantiation of `c5_extreme_scores`. -/
theorem c5_extreme_scores_witness :
    (0 : ℚ) < unitQuestion.weight ∧
    (calculate_scoresWith
        [("Category", [unitQuestion, unitQuestion, unitQuestion, unitQuestion, unitQuestion])]
        [("Category", List.replicate 5 (some 4))] =
       ([("Category", 5)], 5,
        [("Category", catDetail
          [unitQuestion, unitQuestion, unitQuestion, unitQuestion, unitQuestion]
          [4, 4, 4, 4, 4])]) ∧
     (catDetail [unitQuestion, unitQuestion, unitQuestion, unitQuestion, unitQuestion]
        [4, 4, 4, 4, 4]).normalized_score = 5) ∧
    (calculate_scoresWith
        [("Category", [unitQuestion, unitQuestion, unitQuestion, unitQuestion, unitQuestion])]
        [("Category", List.replicate 5 (some 0))] =
       ([("Category", 0)], 0,
        [("Category", catDetail
          [unitQuestion, unitQuestion, unitQuestion, unitQuestion, unitQuestion]
          [0, 0, 0, 0, 0])]) ∧
     (catDetail [unitQuestion, unitQuestion, unitQuestion, unitQuestion, unitQuestion]
        [0, 0, 0, 0, 0]).normalized_score = 0) ∧
    (∀ p ∈ QUESTIONS, p.2.length = 5 ∧ ∀ q ∈ p.2, 0 < q.weight) :=
  ⟨by norm_num [unitQuestion],
   c5_extreme_scores "Category" unitQuestion unitQuestion unitQuestion
     unitQuestion unitQuestion (by norm_num [unitQuestion])
     (by norm_num [unitQuestion]) (by norm_num [unitQuestion])
     (by norm_num [unitQuestion]) (by norm_num [unitQuestion])⟩

/-! ### C8: scoring is monotone in each answer -/

theorem msum_length_eq (qs : List Question) :
    ∀ vs ws : List ℤ, vs.length = ws.length → msum qs vs = msum qs ws := by
  induction qs with
  | nil => intro vs ws _; cases vs <;> cases ws <;> simp [msum]
  | cons q qs ih =>
    intro vs ws hlen
    cases vs with
    | nil =>
      cases ws with
      | nil => rfl
      | cons w ws => simp at hlen
    | cons v vs =>
      cases ws with
      | nil => simp at hlen
      | cons w ws =>
        rw [msum_cons, msum_cons, ih vs ws (by simpa using hlen)]

theorem wsum_le_wsum_set (qs : List Question) :
    ∀ (vs : List ℤ) (j : ℕ) (a b : ℤ), vs[j]? = some a → a ≤ b →
      (∀ q ∈ qs, 0 ≤ q.weight) → wsum qs vs ≤ wsum qs (vs.set j b) := by
  induction qs with
  | nil =>
    intro vs j a b _ _ _
    cases vs with
    | nil => simp
    | cons v vs => cases j <;> simp [wsum]
  | cons q qs ih =>
    intro vs j a b hj hab hw
    cases vs with
    | nil => simp at hj
    | cons v vs =>
      cases j with
      | zero =>
        simp only [List.getElem?_cons_zero, Option.some.injEq] at hj
        rw [List.set_cons_zero, wsum_cons, wsum_cons, hj]
        have hcast : (a : ℚ) ≤ (b : ℚ) := by exact_mod_cast hab
        have hmul := mul_le_mul_of_nonneg_right hcast (hw q (List.mem_cons_self _ _))
        linarith
      | succ j =>
        simp only [List.getElem?_cons_succ] at hj
        rw [List.set_cons_succ, wsum_cons, wsum_cons]
        have := ih vs j a b hj hab (fun x hx => hw x (List.mem_cons_of_mem _ hx))
        linarith

theorem answerVals_set (answers : List (Option ℤ)) (j : ℕ) (b : ℤ) :
    answerVals (answers.set j (some b)) = (answerVals answers).set j b := by
  rw [answerVals, answerVals, List.map_set]
  simp

theorem valid_set {pre post : List (String × List (Option ℤ))} {c : String}
    {answers : List (Option ℤ)} {j : ℕ} {b : ℤ}
    (hv : ValidResp (pre ++ (c, answers) :: post))
    (hb0 : 0 ≤ b) (hb4 : b ≤ 4) :
    ValidResp (pre ++ (c, answers.set j (some b)) :: post) := by
  obtain ⟨hkeys, hent⟩ := hv
  constructor
  · rw [List.map_append, List.map_cons] at hkeys ⊢
    exact hkeys
  · intro p hp
    rw [List.mem_append, List.mem_cons] at hp
    rcases hp with hp | hp | hp
    · exact hent p (by rw [List.mem_append]; exact Or.inl hp)
    · obtain ⟨qs, hqs, hlen, hall⟩ := hent (c, answers)
        (by rw [List.mem_append]; exact Or.inr (List.mem_cons_self _ _))
      subst hp
      refine ⟨qs, hqs, by simpa [List.length_set] using hlen, ?_⟩
      intro x hx
      rcases List.mem_or_eq_of_mem_set hx with hx | rfl
      · exact hall x hx
      · exact ⟨b, rfl, hb0, hb4⟩
    · exact hent p (by rw [List.mem_append, List.mem_cons]; exact Or.inr (Or.inr hp))

/-- C8: replacing one answer `a` by `b` with `a ≤ b` (both in `[0, 4]`) in
a valid ResponseSet never decreases that category's score, never changes
any other category's score (the score lists agree outside the changed
entry), and never decreases the overall score. -/
theorem c8_monotone (pre post : List (String × List (Option ℤ)))
    (c : String) (answers : List (Option ℤ)) (j : ℕ) (a b : ℤ)
    (hv : ValidResp (pre ++ (c, answers) :: post))
    (hj : answers[j]? = some (some a))
    (hab : a ≤ b) (hb0 : 0 ≤ b) (hb4 : b ≤ 4) :
    ∃ ps ss s t o1 o2 d1 d2,
      calculate_scores (pre ++ (c, answers) :: post) =
        (ps ++ (c, s) :: ss, o1, d1) ∧
      calculate_scores (pre ++ (c, answers.set j (some b)) :: post) =
        (ps ++ (c, t) :: ss, o2, d2) ∧
      s ≤ t ∧ o1 ≤ o2 := by
  have hv2 : ValidResp (pre ++ (c, answers.set j (some b)) :: post) :=
    valid_set hv hb0 hb4
  have h1 := calculate_scores_char _ (valid_entryOK hv)
  have h2 := calculate_scores_char _ (valid_entryOK hv2)
  rw [List.map_append, List.map_cons, List.map_append, List.map_cons] at h1 h2
  obtain ⟨qs, hqs, hqsOf, hlen, hlen5, hwpos, hall⟩ := valid_entry hv
    (p := (c, answers))
    (by rw [List.mem_append]; exact Or.inr (List.mem_cons_self _ _))
  simp only at hqsOf hlen hall
  have hpos : 0 < msum qs (answerVals answers) := by
    apply msum_pos_of_ne_nil _ _ _ _ hwpos
    · intro hnil
      rw [hnil] at hlen5
      simp at hlen5
    · intro hnil
      have := congrArg List.length hnil
      rw [answerVals_length, hlen, hlen5] at this
      simp at this
  have hmeq : msum qs (answerVals (answers.set j (some b))) =
      msum qs (answerVals answers) := by
    apply msum_length_eq
    rw [answerVals_set, List.length_set]
  have hwle : wsum qs (answerVals answers) ≤
      wsum qs (answerVals (answers.set j (some b))) := by
    rw [answerVals_set]
    apply wsum_le_wsum_set qs (answerVals answers) j a b _ hab
      (fun q hq => (hwpos q hq).le)
    rw [answerVals, List.getElem?_map, hj]
    rfl
  have hst : round2 (normScore (qsOf c) (answerVals answers)) ≤
      round2 (normScore (qsOf c) (answerVals (answers.set j (some b)))) := by
    apply round2_mono
    rw [hqsOf, normScore, normScore, hmeq, if_pos hpos, if_pos hpos]
    have hdiv : wsum qs (answerVals answers) / msum qs (answerVals answers) ≤
        wsum qs (answerVals (answers.set j (some b))) / msum qs (answerVals answers) := by
      rw [div_eq_mul_inv, div_eq_mul_inv]
      exact mul_le_mul_of_nonneg_right hwle (inv_nonneg.mpr hpos.le)
    have h5 : (0 : ℚ) ≤ 5 := by norm_num
    exact mul_le_mul_of_nonneg_right hdiv h5
  refine ⟨_, _, _, _, _, _, _, _, h1, h2, hst, ?_⟩
  apply round2_mono
  have hne1 : (pre ++ (c, answers) :: post).isEmpty = false := by
    simp
  have hne2 : (pre ++ (c, answers.set j (some b)) :: post).isEmpty = false := by
    simp
  rw [hne1, hne2]
  simp only [Bool.false_eq_true, if_false]
  have hlen12 : ((pre ++ (c, answers) :: post).length : ℚ) =
      ((pre ++ (c, answers.set j (some b)) :: post).length : ℚ) := by
    simp
  have hlenpos : (0 : ℚ) ≤ ((pre ++ (c, answers) :: post).length : ℚ) :=
    Nat.cast_nonneg _
  rw [← hlen12, div_eq_mul_inv, div_eq_mul_inv]
  refine mul_le_mul_of_nonneg_right ?_ (inv_nonneg.mpr hlenpos)
  rw [List.sum_append, List.sum_append, List.sum_cons, List.sum_cons]
  have := hst
  simp only at this ⊢
  linarith

/-- Closed instantiation of `c8_monotone`: raising the first Personal
Connect answer from 0 to 4 in the all-zeros response set. -/
theorem c8_monotone_witness :
    ValidResp ([] ++ ("Personal Connect (Do You Care About Me?)",
        List.replicate 5 (some (0:ℤ))) ::
      [("Trust of Your Trade (Are You the Best?)", List.replicate 5 (some 0)),
       ("Social Trust (Can I Trust You?)", List.replicate 5 (some 0)),
       ("Treating Style (Are You Treating Me Differently?)",
        List.replicate 5 (some 0))]) ∧
    (List.replicate 5 (some (0:ℤ)))[0]? = some (some 0) ∧
    (0 : ℤ) ≤ 4 ∧
    ∃ ps ss s t o1 o2 d1 d2,
      calculate_scores ([] ++ ("Personal Connect (Do You Care About Me?)",
          List.replicate 5 (some (0:ℤ))) ::
        [("Trust of Your Trade (Are You the Best?)", List.replicate 5 (some 0)),
         ("Social Trust (Can I Trust You?)", List.replicate 5 (some 0)),
         ("Treating Style (Are You Treating Me Differently?)",
          List.replicate 5 (some 0))]) =
        (ps ++ ("Personal Connect (Do You Care About Me?)", s) :: ss, o1, d1) ∧
      calculate_scores ([] ++ ("Personal Connect (Do You Care About Me?)",
          (List.replicate 5 (some (0:ℤ))).set 0 (some 4)) ::
        [("Trust of Your Trade (Are You the Best?)", List.replicate 5 (some 0)),
         ("Social Trust (Can I Trust You?)", List.replicate 5 (some 0)),
         ("Treating Style (Are You Treating Me Differently?)",
          List.replicate 5 (some 0))]) =
        (ps ++ ("Personal Connect (Do You Care About Me?)", t) :: ss, o2, d2) ∧
      s ≤ t ∧ o1 ≤ o2 := by
  have hval : ValidResp ([] ++ ("Personal Connect (Do You Care About Me?)",
      List.replicate 5 (some (0:ℤ))) ::
    [("Trust of Your Trade (Are You the Best?)", List.replicate 5 (some 0)),
     ("Social Trust (Can I Trust You?)", List.replicate 5 (some 0)),
     ("Treating Style (Are You Treating Me Differently?)",
      List.replicate 5 (some 0))]) :=
    allAnswers_valid (by norm_num) (by norm_num)
  exact ⟨hval, rfl, by norm_num,
    c8_monotone [] _ _ _ 0 0 4 hval rfl (by norm_num) (by norm_num) (by norm_num)⟩
